import Mathlib

/-!
Shallow embedding of the TeamSync backend's workspace membership and
role-based authorization core, together with its identifier generators
(workspace slugs, project keys, per-project ticket numbers) and the
cascading soft-delete of a workspace.

Sources embedded here:
* `src/src/controllers/workspaceController.js` — `createWorkspace` (slug path),
  `deleteWorkspace`, `inviteMember`, `updateMemberRole`, `removeMember`.
* `src/unnamed/part_003` (workspace permission middleware) —
  `checkWorkspaceMembership`, `checkProjectCreationPermission`.
* `src/unnamed/part_017` (workspace model) — `generateSlugFromName`,
  `findAvailableSlug`, `generateUniqueSlug`, the slug validator pattern.
* `src/src/models/projectModel.js` — `generateKeyFromName`, `generateUniqueKey`.
* `src/src/models/taskSchema.js` — the ticket-number pre-save hook.
* `src/unnamed/part_014` (workspaceMember schema), `src/unnamed/part_016`
  (activityLog schema), `src/src/models/attachmentModel.js` — document shapes.

Modelling conventions: MongoDB ObjectIds and timestamps are `Nat`; a
collection is a `List` of documents in insertion order; `findOne` is
`List.find?`, `exists` is `List.any`, `updateMany` maps a conditional update
over the list.  Controller failures (`AppError(message, statusCode)`) are an
`Except` error carrying the message and numeric HTTP status.  JavaScript
string operations are modelled on `List Char` restricted to their ASCII
behaviour (all inputs relevant to the claims are ASCII).
-/

namespace TeamSync

/-- Workspace roles, from `WORKSPACE_ROLES` in `src/unnamed/part_001`:
owner / admin / member / viewer. -/
inductive Role where
  | owner
  | admin
  | member
  | viewer
deriving DecidableEq, Repr

/-- The `enum: Object.values(WORKSPACE_ROLES)` check of the membership
schema: which strings are valid role values. -/
def roleOfString : String → Option Role
  | "owner" => some Role.owner
  | "admin" => some Role.admin
  | "member" => some Role.member
  | "viewer" => some Role.viewer
  | _ => none

/-- An `AppError(message, statusCode)` as raised by the controllers and
middleware (`src/src/utils/AppError.js`). -/
structure AppError where
  message : String
  status : Nat
deriving DecidableEq, Repr

/-- JavaScript truth-value of an optional string: `undefined`/`null` (here
`none`) and the empty string are falsy, every other string is truthy. -/
def jsFalsyStr : Option String → Bool
  | none => true
  | some s => s == ""

/-- A `Workspace` document (`src/unnamed/part_017`).  `settings` is collapsed
to its only field: `allowMemberProjectCreation`; the middleware reads it with
an optional chain (`workspace.settings?.allowMemberProjectCreation`), so an
absent settings object / absent field is modelled as `none`. -/
structure WorkspaceDoc where
  id : Nat
  name : String
  slug : String
  owner : Nat
  allowMemberProjectCreation : Option Bool
  deletedAt : Option Nat
deriving DecidableEq, Repr

/-- A `WorkspaceMember` document (`src/unnamed/part_014`). -/
structure MemberDoc where
  id : Nat
  workspace : Nat
  user : Nat
  role : Role
  invitedBy : Option Nat
  deletedAt : Option Nat
deriving DecidableEq, Repr

/-- A `User` document, reduced to the fields the embedded operations read. -/
structure UserDoc where
  id : Nat
  email : String
  deletedAt : Option Nat
deriving DecidableEq, Repr

/-- A `Label` document (`src/unnamed/part_017`, label schema). -/
structure LabelDoc where
  id : Nat
  workspace : Nat
  deletedAt : Option Nat
deriving DecidableEq, Repr

/-- A `Project` document (`src/src/models/projectModel.js`). -/
structure ProjectDoc where
  id : Nat
  workspace : Nat
  name : String
  key : String
  deletedAt : Option Nat
deriving DecidableEq, Repr

/-- A `Task` document (`src/src/models/taskSchema.js`). -/
structure TaskDoc where
  id : Nat
  project : Nat
  ticketNumber : Nat
  deletedAt : Option Nat
deriving DecidableEq, Repr

/-- A `Comment` document (comment schema in `src/src/models/taskSchema.js`
file group): belongs to a task, soft-deletable. -/
structure CommentDoc where
  id : Nat
  task : Nat
  deletedAt : Option Nat
deriving DecidableEq, Repr

/-- An `Attachment` document (`src/src/models/attachmentModel.js`).  The
schema's reference fields are `entityType`/`entityId`/`uploadedBy`; it has a
`deletedAt` field but — deliberately mirrored here — NO `workspace` field:
no stored attachment document ever carries one (`uploadTaskAttachment`
creates attachments without it, and the schema would strip an unknown path
on save). -/
structure AttachmentDoc where
  id : Nat
  entityId : Nat
  uploadedBy : Nat
  deletedAt : Option Nat
deriving DecidableEq, Repr

/-- An `ActivityLog` document (`src/unnamed/part_016`).  The schema has
`workspace`/`project`/`user`/`entityType`/`entityId`/`action` fields but —
deliberately mirrored here — NO `deletedAt` field. -/
structure ActivityLogDoc where
  id : Nat
  workspace : Nat
  user : Nat
deriving DecidableEq, Repr

/-- The persistent state: one list per MongoDB collection, in insertion
order. -/
structure DB where
  workspaces : List WorkspaceDoc
  members : List MemberDoc
  users : List UserDoc
  labels : List LabelDoc
  projects : List ProjectDoc
  tasks : List TaskDoc
  comments : List CommentDoc
  attachments : List AttachmentDoc
  activityLogs : List ActivityLogDoc
deriving DecidableEq, Repr

/-! ## Authorization gate (`src/unnamed/part_003`) -/

/-- `checkWorkspaceMembership` middleware: resolves the workspace by slug
(among non-deleted workspaces), then the caller's non-deleted membership in
it, and on success attaches both (`req.workspace`, `req.membership`,
`req.workspaceRole`).  It only issues `findOne` queries and never writes, so
it is a pure function of the database.  `slugParam` is `req.params.slug`;
the source guards `if (!slug)`, i.e. JS falsiness. -/
def checkWorkspaceMembership (db : DB) (slugParam : Option String)
    (userId : Nat) : Except AppError (WorkspaceDoc × MemberDoc) :=
  if jsFalsyStr slugParam then
    .error ⟨"slug is required", 400⟩
  else
    let slug := slugParam.getD ""
    match db.workspaces.find? (fun w => w.slug == slug && w.deletedAt == none) with
    | none => .error ⟨"Workspace not found", 404⟩
    | some workspace =>
      match db.members.find? (fun m =>
          m.workspace == workspace.id && m.user == userId && m.deletedAt == none) with
      | none =>
        .error ⟨"Access denied. You are not a member of this workspace", 403⟩
      | some membership => .ok (workspace, membership)

/-- `checkProjectCreationPermission` middleware, for a request whose
membership has already been resolved (`req.workspaceRole`, `req.workspace`):
owners and admins always pass; a member passes iff
`workspace.settings?.allowMemberProjectCreation === true`; everyone else is
rejected with 403. -/
def checkProjectCreationPermission (workspaceRole : Role)
    (workspace : WorkspaceDoc) : Except AppError Unit :=
  if workspaceRole = Role.owner ∨ workspaceRole = Role.admin then
    .ok ()
  else if workspaceRole = Role.member ∧
      workspace.allowMemberProjectCreation = some true then
    .ok ()
  else
    .error ⟨"Access denied. You do not have permission to create projects in this workspace", 403⟩

/-! ## Member management (`src/src/controllers/workspaceController.js`) -/

/-- The non-deleted OWNER memberships of workspace `wsId` in `db`. -/
def ownerMemberships (db : DB) (wsId : Nat) : List MemberDoc :=
  db.members.filter (fun m =>
    m.workspace == wsId && m.role == Role.owner && m.deletedAt == none)

/-- `inviteMember`: after `checkWorkspaceMembership` has attached
`workspace`, look the invitee up by email among non-deleted users, reject if
already an active member, reject a requested role of `"owner"`, then create
the membership with role `role || WORKSPACE_ROLES.MEMBER` (JS falsy default).
`roleField` is `req.body.role` (`none` = field absent).  The membership
schema's `enum` validator rejects a role string outside the enum at save
time (modelled as the final error case; such requests are already rejected
by the route validator). -/
def inviteMember (db : DB) (workspace : WorkspaceDoc) (inviterId : Nat)
    (email : String) (roleField : Option String) (newId : Nat) :
    Except AppError DB :=
  match db.users.find? (fun u => u.email == email && u.deletedAt == none) with
  | none => .error ⟨"User with this email does not exist", 404⟩
  | some user =>
    match db.members.find? (fun m =>
        m.workspace == workspace.id && m.user == user.id && m.deletedAt == none) with
    | some _ => .error ⟨"User is already a member of this workspace", 409⟩
    | none =>
      if roleField == some "owner" then
        .error ⟨"Cannot invite user as owner. A workspace can only have one owner", 400⟩
      else
        let roleStr := if jsFalsyStr roleField then "member" else roleField.getD ""
        match roleOfString roleStr with
        | none => .error ⟨"WorkspaceMember validation failed", 500⟩
        | some r =>
          .ok { db with members := db.members ++
            [⟨newId, workspace.id, user.id, r, some inviterId, none⟩] }

/-- `updateMemberRole`: find the target membership by id within the
workspace, then apply the guards in source order — target is the owner
(400), requested role is `"owner"` (400), target is the caller (400), an
admin targeting an admin (403) — and otherwise persist the new role.
`roleField` is `req.body.role`; the schema enum rejects invalid strings at
save time. -/
def updateMemberRole (db : DB) (workspace : WorkspaceDoc)
    (currentUserId : Nat) (currentUserRole : Role) (memberId : Nat)
    (roleField : String) : Except AppError DB :=
  match db.members.find? (fun m =>
      m.id == memberId && m.workspace == workspace.id && m.deletedAt == none) with
  | none => .error ⟨"Member not found", 404⟩
  | some membership =>
    if membership.role = Role.owner then
      .error ⟨"Cannot change the role of workspace owner", 400⟩
    else if roleField == "owner" then
      .error ⟨"Cannot promote member to owner role", 400⟩
    else if membership.user == currentUserId then
      .error ⟨"Cannot change your own role", 400⟩
    else if currentUserRole = Role.admin ∧ membership.role = Role.admin then
      .error ⟨"Only workspace owner can change admin roles", 403⟩
    else
      match roleOfString roleField with
      | none => .error ⟨"WorkspaceMember validation failed", 500⟩
      | some r =>
        .ok { db with members := db.members.map (fun m =>
          if m.id == membership.id then { m with role := r } else m) }

/-- `removeMember`: find the target membership by id within the workspace,
then apply the guards in source order — target is the owner (400), target is
the caller (400), an admin targeting an admin (403) — and otherwise soft
delete the membership with a fresh timestamp `now`. -/
def removeMember (db : DB) (workspace : WorkspaceDoc) (currentUserId : Nat)
    (currentUserRole : Role) (memberId : Nat) (now : Nat) :
    Except AppError DB :=
  match db.members.find? (fun m =>
      m.id == memberId && m.workspace == workspace.id && m.deletedAt == none) with
  | none => .error ⟨"Member not found", 404⟩
  | some membership =>
    if membership.role = Role.owner then
      .error ⟨"Cannot remove workspace owner", 400⟩
    else if membership.user == currentUserId then
      .error ⟨"Cannot remove yourself. Use leave endpoint instead", 400⟩
    else if currentUserRole = Role.admin ∧ membership.role = Role.admin then
      .error ⟨"Only workspace owner can remove admins", 403⟩
    else
      .ok { db with members := db.members.map (fun m =>
        if m.id == membership.id then { m with deletedAt := some now } else m) }

/-! ## Cascading soft delete (`deleteWorkspace`) -/

/-- `deleteWorkspace`: captures one timestamp `now` (`const deletedAt = new
Date()`), soft-deletes the workspace, batch-marks its non-deleted members,
labels and projects with the same timestamp, then — through the project and
task id sets — its tasks and comments.

Two operations of the source are provably no-ops and are embedded as such:
* `ActivityLog.updateMany({workspace, deletedAt: null}, {deletedAt})`: the
  activityLog schema has no `deletedAt` path, and Mongoose strict mode (on by
  default) strips unknown paths from update documents, so the update is empty
  and no log document changes.
* `Attachment.updateMany({workspace: workspace._id, deletedAt: null},
  {deletedAt})`: the attachment schema has no `workspace` path and no stored
  attachment carries one, so the filter matches no document (and the call is
  additionally skipped entirely when the workspace has no projects, since it
  sits inside `if (projectIds.length > 0)`).

The `Project.find({workspace})` and `Task.find({project: {$in: ...}})` id
fetches have no `deletedAt` filter, so they include soft-deleted projects
and tasks. -/
def deleteWorkspace (db : DB) (workspace : WorkspaceDoc) (now : Nat) : DB :=
  let db1 : DB := { db with
    workspaces := db.workspaces.map (fun w =>
      if w.id == workspace.id then { w with deletedAt := some now } else w),
    members := db.members.map (fun m =>
      if m.workspace == workspace.id && m.deletedAt == none then
        { m with deletedAt := some now } else m),
    labels := db.labels.map (fun l =>
      if l.workspace == workspace.id && l.deletedAt == none then
        { l with deletedAt := some now } else l),
    projects := db.projects.map (fun p =>
      if p.workspace == workspace.id && p.deletedAt == none then
        { p with deletedAt := some now } else p) }
  let projectIds := (db1.projects.filter (fun p => p.workspace == workspace.id)).map (fun p => p.id)
  if projectIds.length > 0 then
    let taskIds := (db1.tasks.filter (fun t => projectIds.contains t.project)).map (fun t => t.id)
    { db1 with
      tasks := db1.tasks.map (fun t =>
        if projectIds.contains t.project && t.deletedAt == none then
          { t with deletedAt := some now } else t),
      comments :=
        if taskIds.length > 0 then
          db1.comments.map (fun c =>
            if taskIds.contains c.task && c.deletedAt == none then
              { c with deletedAt := some now } else c)
        else db1.comments }
  else db1

/-! ## Ticket numbering (`src/src/models/taskSchema.js` pre-save hook) -/

/-- The next ticket number for `projectId`: the source queries
`findOne({project, deletedAt: null}).sort("-ticketNumber")` — the non-deleted
task of the project with the highest ticket number — and adds 1, or starts
at 1 when there is none. -/
def nextTicketNumber (tasks : List TaskDoc) (projectId : Nat) : Nat :=
  match ((tasks.filter (fun t =>
      t.project == projectId && t.deletedAt == none)).map
        (fun t => t.ticketNumber)).max? with
  | some m => m + 1
  | none => 1

/-- The ticket-number pre-save hook: `if (this.isNew && !this.ticketNumber)`
assign the next number, otherwise leave the field untouched.  `ticketNumber`
is `none` when unset; `some 0` is also JS-falsy and regenerated. -/
def preSaveTicketHook (tasks : List TaskDoc) (isNew : Bool) (projectId : Nat)
    (ticketNumber : Option Nat) : Option Nat :=
  if isNew && (ticketNumber == none || ticketNumber == some 0) then
    some (nextTicketNumber tasks projectId)
  else
    ticketNumber

/-- Saving a new task: run the pre-save hook on an unset ticket number and
append the document. -/
def saveNewTask (db : DB) (projectId : Nat) (newId : Nat) : DB :=
  let n := (preSaveTicketHook db.tasks true projectId none).getD 0
  { db with tasks := db.tasks ++ [⟨newId, projectId, n, none⟩] }

/-! ## Workspace slug generation (`src/unnamed/part_017`)

`generateSlugFromName` chains JS string operations:
`name.toLowerCase().trim().replace(/[^\w\s-]/g, "").replace(/\s+/g,
"-").replace(/[-]+/g, "-").replace(/^-+|-+$/g, "")`.  They are modelled on
`List Char` for the ASCII fragment; core `Char.toLower` is exactly the ASCII
lowercasing JS performs on ASCII letters, and `Char.isWhitespace` covers the
ASCII whitespace of `\s`. -/

/-- JS `\w` character class: `[A-Za-z0-9_]`. -/
def isWordChar (c : Char) : Bool :=
  (65 ≤ c.toNat && c.toNat ≤ 90) || (97 ≤ c.toNat && c.toNat ≤ 122) ||
    (48 ≤ c.toNat && c.toNat ≤ 57) || c == '_'

/-- JS `String.prototype.trim` on a char list: drop whitespace from both
ends. -/
def jsTrim (l : List Char) : List Char :=
  ((l.dropWhile Char.isWhitespace).reverse.dropWhile Char.isWhitespace).reverse

/-- Worker for `replace(/X+/g, rep)`: `inRun` records whether the previous
character belonged to the current `p`-run (in which case further run
characters are dropped rather than replaced again). -/
def collapseRunsAux (p : Char → Bool) (rep : Char) : Bool → List Char → List Char
  | _, [] => []
  | inRun, c :: cs =>
    if p c then
      if inRun then collapseRunsAux p rep true cs
      else rep :: collapseRunsAux p rep true cs
    else c :: collapseRunsAux p rep false cs

/-- `replace(/X+/g, rep)` for a character class `p` and a one-character
replacement: every maximal run of `p`-characters becomes one `rep`. -/
def collapseRuns (p : Char → Bool) (rep : Char) (l : List Char) : List Char :=
  collapseRunsAux p rep false l

/-- `replace(/^-+|-+$/g, "")`: drop the leading and the trailing hyphen
run. -/
def trimHyphens (l : List Char) : List Char :=
  ((l.dropWhile (fun c => c == '-')).reverse.dropWhile (fun c => c == '-')).reverse

/-- `generateSlugFromName` from the workspace model: lowercase, trim, strip
characters outside `[\w\s-]`, turn whitespace runs into single hyphens,
collapse hyphen runs, trim hyphens at the ends. -/
def generateSlugFromName (name : String) : String :=
  String.mk
    (trimHyphens
      (collapseRuns (fun c => c == '-') '-'
        (collapseRuns Char.isWhitespace '-'
          ((jsTrim (name.toList.map Char.toLower)).filter
            (fun c => isWordChar c || c.isWhitespace || c == '-')))))

/-- The `k`-th slug candidate probed by `findAvailableSlug`: the base slug
itself, then `` `${baseSlug}-${counter}` `` for counter 1, 2, …. -/
def slugCandidate (base : String) (k : Nat) : String :=
  if k == 0 then base else base ++ "-" ++ Nat.repr k

/-- `this.exists({ slug, deletedAt: null })`: is the candidate slug taken by
a non-deleted workspace? -/
def slugTaken (workspaces : List WorkspaceDoc) (slug : String) : Bool :=
  workspaces.any (fun w => w.slug == slug && w.deletedAt == none)

/-- The probe loop of `findAvailableSlug`.  The source's `while` loop has no
attempt counter or bound; it probes candidate 0, 1, 2, … until one is free.
It is embedded with explicit fuel; `workspaces.length + 1` probes always
suffice, because the candidates are pairwise distinct strings and at most
`workspaces.length` of them can be taken, so the `none` (fuel exhausted)
case is unreachable from `findAvailableSlug`. -/
def findAvailableSlugAux (workspaces : List WorkspaceDoc) (base : String) :
    Nat → Nat → Option String
  | 0, _ => none
  | fuel + 1, k =>
    if slugTaken workspaces (slugCandidate base k) then
      findAvailableSlugAux workspaces base fuel (k + 1)
    else
      some (slugCandidate base k)

/-- `Workspace.findAvailableSlug(baseSlug)`: the first untaken candidate. -/
def findAvailableSlug (workspaces : List WorkspaceDoc) (base : String) :
    Option String :=
  findAvailableSlugAux workspaces base (workspaces.length + 1) 0

/-- `Workspace.generateUniqueSlug(name)` — the pre-save hook path for a
workspace saved without an explicit slug. -/
def generateUniqueSlug (workspaces : List WorkspaceDoc) (name : String) :
    Option String :=
  findAvailableSlug workspaces (generateSlugFromName name)

/-- No two adjacent hyphens anywhere in the list. -/
def noHyphenRun : List Char → Bool
  | [] => true
  | [_] => true
  | a :: b :: rest => !(a == '-' && b == '-') && noHyphenRun (b :: rest)

/-- The workspace schema's slug validator `^[a-z0-9]+(?:-[a-z0-9]+)*$`,
transcribed: nonempty; every character is `[a-z0-9]` or a hyphen; no leading
or trailing hyphen; no two adjacent hyphens.  These four conditions are
exactly the strings matched by the regex: the hyphens split the string into
nonempty `[a-z0-9]` groups. -/
def matchesSlugPattern (s : String) : Prop :=
  s.toList ≠ [] ∧
  (∀ c ∈ s.toList, (97 ≤ c.toNat ∧ c.toNat ≤ 122) ∨ (48 ≤ c.toNat ∧ c.toNat ≤ 57) ∨ c = '-') ∧
  s.toList.head? ≠ some '-' ∧
  s.toList.getLast? ≠ some '-' ∧
  noHyphenRun s.toList = true

instance (s : String) : Decidable (matchesSlugPattern s) :=
  inferInstanceAs (Decidable (s.toList ≠ [] ∧
    (∀ c ∈ s.toList,
      (97 ≤ c.toNat ∧ c.toNat ≤ 122) ∨ (48 ≤ c.toNat ∧ c.toNat ≤ 57) ∨ c = '-') ∧
    s.toList.head? ≠ some '-' ∧
    s.toList.getLast? ≠ some '-' ∧
    noHyphenRun s.toList = true))

/-- Modelled from the spec (for comparison with `generateSlugFromName`
only): the claimed derivation "lowercase the name, strip characters outside
`[a-z0-9\s-]`, collapse whitespace runs to single hyphens, trim
leading/trailing hyphens". -/
def specSlugFromName (name : String) : String :=
  String.mk
    (trimHyphens
      (collapseRuns Char.isWhitespace '-'
        ((name.toList.map Char.toLower).filter
          (fun c => (97 ≤ c.toNat && c.toNat ≤ 122) ||
            (48 ≤ c.toNat && c.toNat ≤ 57) || c.isWhitespace || c == '-'))))

/-! ## Project key generation (`src/src/models/projectModel.js`) -/

/-- `[A-Z0-9]` — the characters kept by
`replace(/[^A-Z0-9\s]/g, "")` besides whitespace. -/
def isKeyChar (c : Char) : Bool :=
  (65 ≤ c.toNat && c.toNat ≤ 90) || (48 ≤ c.toNat && c.toNat ≤ 57)

/-- JS `str.split(/\s+/)` on a char list.  Faithful to JS semantics: the
empty string yields `[""]` (one empty piece), and a string beginning with
whitespace yields a leading empty piece.  (Both matter: the project-name
pipeline trims before splitting, but the empty string still reaches this
function.) -/
def wsSplitAux : Bool → List Char → List Char → List (List Char)
  | _, [], acc => [acc.reverse]
  | skipping, c :: cs, acc =>
    if c.isWhitespace then
      if skipping then wsSplitAux true cs acc
      else acc.reverse :: wsSplitAux true cs []
    else wsSplitAux false cs (c :: acc)

/-- JS `str.split(/\s+/)`.  The worker's flag records whether the scan is
inside a whitespace run (one separator per run). -/
def wsSplit (l : List Char) : List (List Char) :=
  wsSplitAux false l []

/-- `Project.generateKeyFromName(name)`:
`name.toUpperCase().replace(/[^A-Z0-9\s]/g, "").trim().split(/\s+/)`, then:
no words → `"PROJ"`; one word → its first 3 characters; several words →
the first character of each, truncated to 4.  (JS `word[0]` of an empty
word is `undefined`, which `join("")` renders as the empty string — hence
`take 1`.)  Note the no-words branch is unreachable: JS `split` never
returns an empty array, so an empty cleaned name falls into the one-word
branch with the empty word and yields `""`. -/
def generateKeyFromName (name : String) : String :=
  let words := wsSplit (jsTrim ((name.toList.map Char.toUpper).filter
    (fun c => isKeyChar c || c.isWhitespace)))
  match words with
  | [] => "PROJ"
  | [w] => String.mk (w.take 3)
  | _ => String.mk (((words.map (fun w => w.take 1)).flatten).take 4)

/-- The `counter`-th project-key candidate: the base key itself, then
`` `${baseKey}${counter}` `` (no separator) for counter 1, 2, …. -/
def keyCandidate (base : String) (k : Nat) : String :=
  if k == 0 then base else base ++ Nat.repr k

/-- `findOne({ workspace: workspaceId, key })` — the probe of
`generateUniqueKey`.  Deliberately no `deletedAt` filter: soft-deleted
projects also block a key. -/
def keyTaken (projects : List ProjectDoc) (wsId : Nat) (key : String) : Bool :=
  projects.any (fun p => p.workspace == wsId && p.key == key)

/-- The `while (true)` loop of `generateUniqueKey`: probe the current key;
if free return it; otherwise increment the counter, build
`` `${baseKey}${counter}` ``, and throw the generation-exhausted error once
the counter exceeds 999.  The loop is intrinsically bounded by its own
counter check (`if (counter > 999) throw`), so it is embedded structurally
on the number of remaining attempts, `fuel = 999 - counter`: the error fires
exactly when the source's counter would exceed 999. -/
def generateUniqueKeyAux (projects : List ProjectDoc) (wsId : Nat)
    (base : String) : String → Nat → Nat → Except AppError String
  | key, counter, fuel =>
    if keyTaken projects wsId key then
      match fuel with
      | 0 =>
        .error ⟨"Unable to generate unique project key after 999 attempts", 500⟩
      | f + 1 =>
        generateUniqueKeyAux projects wsId base (base ++ Nat.repr (counter + 1))
          (counter + 1) f
    else
      .ok key

/-- `Project.generateUniqueKey(name, workspaceId)`: start at the base key
with counter 0; the counter check allows suffixes 1 … 999. -/
def generateUniqueKey (projects : List ProjectDoc) (wsId : Nat)
    (name : String) : Except AppError String :=
  generateUniqueKeyAux projects wsId (generateKeyFromName name)
    (generateKeyFromName name) 0 999

/-! ## Concrete instances used by individual claims -/

/-- The pattern `^[a-z0-9_]+(-[a-z0-9_]+)*$`: the slug validator's shape
relaxed to also allow underscores inside groups (JS `\w` keeps them). -/
def matchesRelaxedSlugPattern (s : String) : Prop :=
  s.toList ≠ [] ∧
  (∀ c ∈ s.toList,
    (97 ≤ c.toNat ∧ c.toNat ≤ 122) ∨ (48 ≤ c.toNat ∧ c.toNat ≤ 57) ∨
      c = '_' ∨ c = '-') ∧
  s.toList.head? ≠ some '-' ∧
  s.toList.getLast? ≠ some '-' ∧
  noHyphenRun s.toList = true

instance (s : String) : Decidable (matchesRelaxedSlugPattern s) :=
  inferInstanceAs (Decidable (s.toList ≠ [] ∧
    (∀ c ∈ s.toList,
      (97 ≤ c.toNat ∧ c.toNat ≤ 122) ∨ (48 ≤ c.toNat ∧ c.toNat ≤ 57) ∨
        c = '_' ∨ c = '-') ∧
    s.toList.head? ≠ some '-' ∧
    s.toList.getLast? ≠ some '-' ∧
    noHyphenRun s.toList = true))

/-- A workspace used as the deletion target in concrete evaluations. -/
def wsA : WorkspaceDoc := ⟨1, "Acme", "acme", 10, some false, none⟩

/-- A database in which workspace 1 has one active membership, label,
project, task, comment, attachment (on that task) and activity log, plus an
unrelated workspace 2 with a member of its own. -/
def dbCascade : DB :=
  { workspaces := [wsA, ⟨2, "Other", "other", 11, some false, none⟩]
    members := [⟨100, 1, 10, Role.owner, none, none⟩,
                ⟨101, 2, 11, Role.owner, none, none⟩]
    users := [⟨10, "a@x.io", none⟩, ⟨11, "b@x.io", none⟩]
    labels := [⟨200, 1, none⟩]
    projects := [⟨300, 1, "Proj", "PRO", none⟩]
    tasks := [⟨400, 300, 1, none⟩]
    comments := [⟨500, 400, none⟩]
    attachments := [⟨600, 400, 10, none⟩]
    activityLogs := [⟨700, 1, 10⟩] }

/-- 1001 non-deleted workspaces whose slugs are exactly the probe candidates
`a`, `a-1`, …, `a-1000` of base `a`. -/
def wssCrowded : List WorkspaceDoc :=
  (List.range 1001).map (fun k => ⟨k, "W", slugCandidate "a" k, 0, none, none⟩)

/-- 1000 projects of workspace 7 whose keys are exactly the probe candidates
`K`, `K1`, …, `K999` of base `K`. -/
def projsCrowded : List ProjectDoc :=
  (List.range 1000).map (fun k => ⟨k, 7, "P", keyCandidate "K" k, none⟩)

/-! ## Theorems -/

/-- C2: for a request carrying a workspace identifier, the membership gate
fails with NotFound ("Workspace not found", 404) when no non-deleted
workspace has the slug; fails with Forbidden ("Access denied. You are not a
member of this workspace", 403) when the workspace resolves but the caller
has no non-deleted membership in it; succeeds returning exactly the resolved
workspace and membership (whose role it attaches) otherwise; and the two
failures are distinct errors.  The gate is a pure function of the database —
like the source, which performs two `findOne` reads and no write. -/
theorem checkWorkspaceMembership_gate (db : DB) (slug : String) (userId : Nat)
    (hslug : slug ≠ "") :
    (db.workspaces.find? (fun w => w.slug == slug && w.deletedAt == none) = none →
      checkWorkspaceMembership db (some slug) userId =
        .error ⟨"Workspace not found", 404⟩) ∧
    (∀ w, db.workspaces.find? (fun w => w.slug == slug && w.deletedAt == none) = some w →
      db.members.find? (fun m =>
        m.workspace == w.id && m.user == userId && m.deletedAt == none) = none →
      checkWorkspaceMembership db (some slug) userId =
        .error ⟨"Access denied. You are not a member of this workspace", 403⟩) ∧
    (∀ w m, db.workspaces.find? (fun w => w.slug == slug && w.deletedAt == none) = some w →
      db.members.find? (fun m =>
        m.workspace == w.id && m.user == userId && m.deletedAt == none) = some m →
      checkWorkspaceMembership db (some slug) userId = .ok (w, m) ∧
      w.slug = slug ∧ w.deletedAt = none ∧
      m.workspace = w.id ∧ m.user = userId ∧ m.deletedAt = none) ∧
    (⟨"Workspace not found", 404⟩ : AppError) ≠
      ⟨"Access denied. You are not a member of this workspace", 403⟩ := by
  have hfalsy : jsFalsyStr (some slug) = false := by
    simp [jsFalsyStr, hslug]
  refine ⟨?_, ?_, ?_, by decide⟩
  · intro hw
    simp [checkWorkspaceMembership, hfalsy, hw]
  · intro w hw hm
    simp [checkWorkspaceMembership, hfalsy, hw, hm]
  · intro w m hw hm
    have hw' := List.find?_some hw
    have hm' := List.find?_some hm
    simp only [Bool.and_eq_true, beq_iff_eq] at hw' hm'
    refine ⟨by simp [checkWorkspaceMembership, hfalsy, hw, hm], ?_, ?_, ?_, ?_, ?_⟩
    · exact hw'.1
    · exact hw'.2
    · exact hm'.1.1
    · exact hm'.1.2
    · exact hm'.2

/-- C2 witness: on a one-workspace database the gate yields NotFound for an
unknown slug, Forbidden for a non-member of the existing workspace, and
success with the attached workspace and membership for the member. -/
theorem checkWorkspaceMembership_gate_witness :
    checkWorkspaceMembership
      ⟨[⟨1, "Acme", "acme", 10, some false, none⟩],
       [⟨100, 1, 10, Role.owner, none, none⟩], [⟨10, "a@x.io", none⟩],
       [], [], [], [], [], []⟩ (some "nope") 10 =
      .error ⟨"Workspace not found", 404⟩ ∧
    checkWorkspaceMembership
      ⟨[⟨1, "Acme", "acme", 10, some false, none⟩],
       [⟨100, 1, 10, Role.owner, none, none⟩], [⟨10, "a@x.io", none⟩],
       [], [], [], [], [], []⟩ (some "acme") 99 =
      .error ⟨"Access denied. You are not a member of this workspace", 403⟩ ∧
    checkWorkspaceMembership
      ⟨[⟨1, "Acme", "acme", 10, some false, none⟩],
       [⟨100, 1, 10, Role.owner, none, none⟩], [⟨10, "a@x.io", none⟩],
       [], [], [], [], [], []⟩ (some "acme") 10 =
      .ok (⟨1, "Acme", "acme", 10, some false, none⟩,
           ⟨100, 1, 10, Role.owner, none, none⟩) :=
  ⟨(checkWorkspaceMembership_gate _ "nope" 10 (by decide)).1 (by rfl),
   (checkWorkspaceMembership_gate _ "acme" 99 (by decide)).2.1
     ⟨1, "Acme", "acme", 10, some false, none⟩ (by rfl) (by rfl),
   ((checkWorkspaceMembership_gate _ "acme" 10 (by decide)).2.2.1
     ⟨1, "Acme", "acme", 10, some false, none⟩
     ⟨100, 1, 10, Role.owner, none, none⟩ (by rfl) (by rfl)).1⟩

/-- C3: the resolved-membership project-creation check succeeds exactly for
OWNER, ADMIN, or MEMBER with `allowMemberProjectCreation` strictly `true`;
in every other case (VIEWER, or MEMBER with the setting `false` or absent)
it yields the Forbidden (403) error. -/
theorem checkProjectCreationPermission_spec (role : Role) (ws : WorkspaceDoc) :
    (checkProjectCreationPermission role ws = .ok () ↔
      role = Role.owner ∨ role = Role.admin ∨
        (role = Role.member ∧ ws.allowMemberProjectCreation = some true)) ∧
    (¬(role = Role.owner ∨ role = Role.admin ∨
        (role = Role.member ∧ ws.allowMemberProjectCreation = some true)) →
      checkProjectCreationPermission role ws =
        .error ⟨"Access denied. You do not have permission to create projects in this workspace", 403⟩) := by
  by_cases hset : ws.allowMemberProjectCreation = some true <;>
    cases role <;> simp_all [checkProjectCreationPermission]

/-- C3 witness: a member may create projects when the workspace setting is
on; a viewer is rejected with 403 even then; a member is rejected when the
setting is absent. -/
theorem checkProjectCreationPermission_spec_witness :
    checkProjectCreationPermission Role.member ⟨1, "A", "a", 0, some true, none⟩ = .ok () ∧
    checkProjectCreationPermission Role.viewer ⟨1, "A", "a", 0, some true, none⟩ =
      .error ⟨"Access denied. You do not have permission to create projects in this workspace", 403⟩ ∧
    checkProjectCreationPermission Role.member ⟨1, "A", "a", 0, none, none⟩ =
      .error ⟨"Access denied. You do not have permission to create projects in this workspace", 403⟩ :=
  ⟨(checkProjectCreationPermission_spec Role.member _).1.mpr
      (Or.inr (Or.inr ⟨rfl, rfl⟩)),
   (checkProjectCreationPermission_spec Role.viewer _).2 (by decide),
   (checkProjectCreationPermission_spec Role.member _).2 (by decide)⟩

/-- C10: an invite that passes the user-lookup and duplicate-membership
guards and carries a JS-falsy role field (absent or empty) creates the
membership with the defaulted role MEMBER, recording the inviter. -/
theorem inviteMember_default_role (db : DB) (ws : WorkspaceDoc)
    (inviterId : Nat) (email : String) (roleField : Option String)
    (newId : Nat) (user : UserDoc)
    (hu : db.users.find? (fun u => u.email == email && u.deletedAt == none) = some user)
    (hm : db.members.find? (fun m =>
      m.workspace == ws.id && m.user == user.id && m.deletedAt == none) = none)
    (hfalsy : jsFalsyStr roleField = true) :
    inviteMember db ws inviterId email roleField newId =
      .ok { db with members := db.members ++
        [⟨newId, ws.id, user.id, Role.member, some inviterId, none⟩] } := by
  have hnotowner : (roleField == some "owner") = false := by
    cases roleField with
    | none => rfl
    | some s =>
      simp only [jsFalsyStr, beq_iff_eq] at hfalsy
      simp [hfalsy]
  simp [inviteMember, hu, hm, hnotowner, hfalsy, roleOfString]

/-- Filtering a pointwise update changes nothing when the update preserves
the predicate and fixes every element satisfying it. -/
theorem filter_map_congr {α : Type} (l : List α) (g : α → α) (p : α → Bool)
    (h : ∀ x ∈ l, p (g x) = p x ∧ (p x = true → g x = x)) :
    (l.map g).filter p = l.filter p := by
  induction l with
  | nil => rfl
  | cons a t ih =>
    have ha := h a (List.mem_cons_self a t)
    have iht := ih (fun x hx => h x (List.mem_cons_of_mem a hx))
    simp only [List.map_cons, List.filter_cons, ha.1]
    cases hpa : p a with
    | false => simpa using iht
    | true => rw [ha.2 hpa]; simp [iht]

/-- Only the string `"owner"` parses to the OWNER role. -/
theorem roleOfString_eq_owner {s : String} (h : roleOfString s = some Role.owner) :
    s = "owner" := by
  unfold roleOfString at h
  split at h <;> simp_all

/-- Shape of a successful invite: the database is extended by exactly one
membership for the invitee, and its role is never OWNER. -/
theorem inviteMember_ok_shape {db : DB} {ws : WorkspaceDoc} {inviterId : Nat}
    {email : String} {roleField : Option String} {newId : Nat} {db' : DB}
    (h : inviteMember db ws inviterId email roleField newId = .ok db') :
    (roleField == some "owner") = false ∧
    ∃ uid r, r ≠ Role.owner ∧
      db' = { db with members := db.members ++
        [⟨newId, ws.id, uid, r, some inviterId, none⟩] } := by
  unfold inviteMember at h
  split at h
  · exact absurd h (by simp)
  next user _ =>
    split at h
    · exact absurd h (by simp)
    next =>
      split at h
      · exact absurd h (by simp)
      next hguard =>
        refine ⟨by simpa using hguard, ?_⟩
        split at h
        · dsimp only at h
          split at h
          · exact absurd h (by simp)
          next r hrole =>
            refine ⟨user.id, r, ?_, by simpa using h.symm⟩
            intro hr
            subst hr
            exact absurd (roleOfString_eq_owner hrole) (by decide)
        next hf =>
          dsimp only at h
          split at h
          · exact absurd h (by simp)
          next r hrole =>
            refine ⟨user.id, r, ?_, by simpa using h.symm⟩
            intro hr
            subst hr
            have hstr := roleOfString_eq_owner hrole
            cases roleField with
            | none => exact hf rfl
            | some s =>
              simp only [Option.getD_some] at hstr
              subst hstr
              simp at hguard

/-- Shape of a successful role update: the found target membership is not
the owner's, the parsed new role is never OWNER, and the database update
rewrites exactly the memberships with the target's id. -/
theorem updateMemberRole_ok_shape {db : DB} {ws : WorkspaceDoc}
    {currentUserId : Nat} {currentUserRole : Role} {memberId : Nat}
    {roleStr : String} {db' : DB}
    (h : updateMemberRole db ws currentUserId currentUserRole memberId roleStr = .ok db') :
    ∃ m r, db.members.find? (fun x =>
        x.id == memberId && x.workspace == ws.id && x.deletedAt == none) = some m ∧
      m.role ≠ Role.owner ∧ roleOfString roleStr = some r ∧ r ≠ Role.owner ∧
      db' = { db with members := db.members.map (fun x =>
        if x.id == m.id then { x with role := r } else x) } := by
  unfold updateMemberRole at h
  split at h
  · exact absurd h (by simp)
  · next m hfind =>
    split at h
    · exact absurd h (by simp)
    · next howner =>
      split at h
      · exact absurd h (by simp)
      · next hreq =>
        split at h
        · exact absurd h (by simp)
        · split at h
          · exact absurd h (by simp)
          · split at h
            · exact absurd h (by simp)
            · next r hrole =>
              refine ⟨m, r, hfind, howner, hrole, ?_, by simpa using h.symm⟩
              intro hr
              subst hr
              exact hreq (by simp [roleOfString_eq_owner hrole])

/-- C1: no OWNER membership is ever produced by the invite or role-update
paths.  A successful invite leaves the non-deleted OWNER memberships of
every workspace unchanged (the created membership's role is never OWNER);
an invite explicitly requesting role `"owner"` can never succeed, and when
it passes the earlier guards it fails precisely with the 400 BadRequest; a
successful role update also preserves the OWNER memberships of every
workspace (the target is not the owner and the new role cannot be OWNER,
with membership ids unique as enforced by Mongo's `_id`); targeting the
OWNER membership or requesting role `"owner"` is rejected with 400. -/
theorem no_owner_via_invite_or_update (db : DB) (ws : WorkspaceDoc)
    (inviterId : Nat) (email : String) (roleField : Option String)
    (newId : Nat) (currentUserId : Nat) (currentUserRole : Role)
    (memberId : Nat) (roleStr : String) (wsId : Nat) :
    (∀ db', inviteMember db ws inviterId email roleField newId = .ok db' →
      ownerMemberships db' wsId = ownerMemberships db wsId) ∧
    (roleField = some "owner" →
      ∀ db', inviteMember db ws inviterId email roleField newId ≠ .ok db') ∧
    (roleField = some "owner" →
      ∀ user, db.users.find? (fun u => u.email == email && u.deletedAt == none) = some user →
        db.members.find? (fun m =>
          m.workspace == ws.id && m.user == user.id && m.deletedAt == none) = none →
        inviteMember db ws inviterId email roleField newId =
          .error ⟨"Cannot invite user as owner. A workspace can only have one owner", 400⟩) ∧
    ((db.members.map MemberDoc.id).Nodup →
      ∀ db', updateMemberRole db ws currentUserId currentUserRole memberId roleStr = .ok db' →
        ownerMemberships db' wsId = ownerMemberships db wsId) ∧
    (∀ m, db.members.find? (fun x =>
        x.id == memberId && x.workspace == ws.id && x.deletedAt == none) = some m →
      (m.role = Role.owner →
        updateMemberRole db ws currentUserId currentUserRole memberId roleStr =
          .error ⟨"Cannot change the role of workspace owner", 400⟩) ∧
      (m.role ≠ Role.owner → roleStr = "owner" →
        updateMemberRole db ws currentUserId currentUserRole memberId roleStr =
          .error ⟨"Cannot promote member to owner role", 400⟩)) := by
  refine ⟨?_, ?_, ?_, ?_, ?_⟩
  · intro db' h
    obtain ⟨-, uid, r, hr, hdb⟩ := inviteMember_ok_shape h
    subst hdb
    unfold ownerMemberships
    simp only [List.filter_append]
    have hrb : (r == Role.owner) = false := by simpa using hr
    have : (List.filter (fun m =>
        m.workspace == wsId && m.role == Role.owner && m.deletedAt == none)
        [(⟨newId, ws.id, uid, r, some inviterId, none⟩ : MemberDoc)]) = [] := by
      simp [List.filter, hrb]
    rw [this, List.append_nil]
  · intro hrf db' h
    obtain ⟨hguard, -⟩ := inviteMember_ok_shape h
    subst hrf
    simp at hguard
  · intro hrf user hu hm
    subst hrf
    simp [inviteMember, hu, hm]
  · intro hnodup db' h
    obtain ⟨m, r, hfind, howner, hrole, hr, hdb⟩ := updateMemberRole_ok_shape h
    subst hdb
    unfold ownerMemberships
    have hmem := List.mem_of_find?_eq_some hfind
    refine filter_map_congr _ _ _ ?_
    intro x hx
    have hrb : (r == Role.owner) = false := by simpa using hr
    by_cases hid : (x.id == m.id) = true
    · have hxm : x = m :=
        List.inj_on_of_nodup_map hnodup hx hmem (by simpa using hid)
      subst hxm
      have hob : (x.role == Role.owner) = false := by simpa using howner
      rw [if_pos hid]
      constructor
      · simp [hrb, hob]
      · intro hpx
        simp [hob] at hpx
    · rw [if_neg hid]
      exact ⟨rfl, fun _ => rfl⟩
  · intro m hfind
    constructor
    · intro howner
      simp [updateMemberRole, hfind, howner]
    · intro howner hreq
      subst hreq
      have : (m.role = Role.owner) = False := by simp [howner]
      simp [updateMemberRole, hfind, howner]

/-- C1 witness: with one owner and one member in the workspace, inviting a
new user as `"owner"` fails with 400 and preserves the owner set; a
successful plain invite and a successful member→admin role change both
leave the non-deleted OWNER memberships unchanged. -/
theorem no_owner_via_invite_or_update_witness :
    inviteMember
      ⟨[⟨1, "Acme", "acme", 10, some false, none⟩],
       [⟨100, 1, 10, Role.owner, none, none⟩, ⟨101, 1, 11, Role.member, some 10, none⟩],
       [⟨10, "a@x.io", none⟩, ⟨12, "c@x.io", none⟩],
       [], [], [], [], [], []⟩
      ⟨1, "Acme", "acme", 10, some false, none⟩ 10 "c@x.io" (some "owner") 102 =
      .error ⟨"Cannot invite user as owner. A workspace can only have one owner", 400⟩ ∧
    (∀ db', updateMemberRole
      ⟨[⟨1, "Acme", "acme", 10, some false, none⟩],
       [⟨100, 1, 10, Role.owner, none, none⟩, ⟨101, 1, 11, Role.member, some 10, none⟩],
       [⟨10, "a@x.io", none⟩, ⟨12, "c@x.io", none⟩],
       [], [], [], [], [], []⟩
      ⟨1, "Acme", "acme", 10, some false, none⟩ 10 Role.owner 101 "admin" = .ok db' →
      ownerMemberships db' 1 = ownerMemberships
      ⟨[⟨1, "Acme", "acme", 10, some false, none⟩],
       [⟨100, 1, 10, Role.owner, none, none⟩, ⟨101, 1, 11, Role.member, some 10, none⟩],
       [⟨10, "a@x.io", none⟩, ⟨12, "c@x.io", none⟩],
       [], [], [], [], [], []⟩ 1) :=
  ⟨(no_owner_via_invite_or_update _ _ 10 "c@x.io" (some "owner") 102 10
      Role.owner 101 "admin" 1).2.2.1 rfl ⟨12, "c@x.io", none⟩ (by rfl) (by rfl),
   (no_owner_via_invite_or_update _ _ 10 "c@x.io" (some "owner") 102 10
      Role.owner 101 "admin" 1).2.2.2.1 (by decide)⟩

/-- C9: for a role update or a removal targeting another user's non-deleted
ADMIN membership, an ADMIN caller is rejected with the 403 Forbidden, while
an OWNER caller succeeds (the role is updated / the membership is
soft-deleted) when no other guard applies. -/
theorem admin_target_guard (db : DB) (ws : WorkspaceDoc) (currentUserId : Nat)
    (memberId : Nat) (roleStr : String) (now : Nat) (m : MemberDoc) (r : Role)
    (hfind : db.members.find? (fun x =>
      x.id == memberId && x.workspace == ws.id && x.deletedAt == none) = some m)
    (htarget : m.role = Role.admin)
    (hself : m.user ≠ currentUserId)
    (hreq : roleStr ≠ "owner")
    (hvalid : roleOfString roleStr = some r) :
    (updateMemberRole db ws currentUserId Role.admin memberId roleStr =
      .error ⟨"Only workspace owner can change admin roles", 403⟩) ∧
    (removeMember db ws currentUserId Role.admin memberId now =
      .error ⟨"Only workspace owner can remove admins", 403⟩) ∧
    (updateMemberRole db ws currentUserId Role.owner memberId roleStr =
      .ok { db with members := db.members.map (fun x =>
        if x.id == m.id then { x with role := r } else x) }) ∧
    (removeMember db ws currentUserId Role.owner memberId now =
      .ok { db with members := db.members.map (fun x =>
        if x.id == m.id then { x with deletedAt := some now } else x) }) := by
  have howner : ¬(m.role = Role.owner) := by simp [htarget]
  have hselfb : (m.user == currentUserId) = false := by simpa using hself
  refine ⟨?_, ?_, ?_, ?_⟩
  · simp [updateMemberRole, hfind, howner, hreq, hselfb, htarget]
  · simp [removeMember, hfind, howner, hselfb, htarget]
  · simp [updateMemberRole, hfind, howner, hreq, hselfb, htarget, hvalid]
  · simp [removeMember, hfind, howner, hselfb, htarget]

/-- C9 witness: with an owner (user 10), an admin caller (user 11, member
101) and an admin target (user 12, membership 102), the admin caller's
update/removal of the target is 403 while the owner's update/removal
succeeds. -/
theorem admin_target_guard_witness :
    updateMemberRole
      ⟨[⟨1, "Acme", "acme", 10, some false, none⟩],
       [⟨100, 1, 10, Role.owner, none, none⟩, ⟨101, 1, 11, Role.admin, some 10, none⟩,
        ⟨102, 1, 12, Role.admin, some 10, none⟩],
       [], [], [], [], [], [], []⟩
      ⟨1, "Acme", "acme", 10, some false, none⟩ 11 Role.admin 102 "member" =
      .error ⟨"Only workspace owner can change admin roles", 403⟩ ∧
    removeMember
      ⟨[⟨1, "Acme", "acme", 10, some false, none⟩],
       [⟨100, 1, 10, Role.owner, none, none⟩, ⟨101, 1, 11, Role.admin, some 10, none⟩,
        ⟨102, 1, 12, Role.admin, some 10, none⟩],
       [], [], [], [], [], [], []⟩
      ⟨1, "Acme", "acme", 10, some false, none⟩ 11 Role.admin 102 77 =
      .error ⟨"Only workspace owner can remove admins", 403⟩ ∧
    updateMemberRole
      ⟨[⟨1, "Acme", "acme", 10, some false, none⟩],
       [⟨100, 1, 10, Role.owner, none, none⟩, ⟨101, 1, 11, Role.admin, some 10, none⟩,
        ⟨102, 1, 12, Role.admin, some 10, none⟩],
       [], [], [], [], [], [], []⟩
      ⟨1, "Acme", "acme", 10, some false, none⟩ 10 Role.owner 102 "member" =
      .ok ⟨[⟨1, "Acme", "acme", 10, some false, none⟩],
       [⟨100, 1, 10, Role.owner, none, none⟩, ⟨101, 1, 11, Role.admin, some 10, none⟩,
        ⟨102, 1, 12, Role.member, some 10, none⟩],
       [], [], [], [], [], [], []⟩ := by
  have h := admin_target_guard
    ⟨[⟨1, "Acme", "acme", 10, some false, none⟩],
     [⟨100, 1, 10, Role.owner, none, none⟩, ⟨101, 1, 11, Role.admin, some 10, none⟩,
      ⟨102, 1, 12, Role.admin, some 10, none⟩],
     [], [], [], [], [], [], []⟩
    ⟨1, "Acme", "acme", 10, some false, none⟩ 11 102 "member" 77
    ⟨102, 1, 12, Role.admin, some 10, none⟩ Role.member
    (by rfl) (by rfl) (by decide) (by decide) (by rfl)
  have h10 := admin_target_guard
    ⟨[⟨1, "Acme", "acme", 10, some false, none⟩],
     [⟨100, 1, 10, Role.owner, none, none⟩, ⟨101, 1, 11, Role.admin, some 10, none⟩,
      ⟨102, 1, 12, Role.admin, some 10, none⟩],
     [], [], [], [], [], [], []⟩
    ⟨1, "Acme", "acme", 10, some false, none⟩ 10 102 "member" 77
    ⟨102, 1, 12, Role.admin, some 10, none⟩ Role.member
    (by rfl) (by rfl) (by decide) (by decide) (by rfl)
  refine ⟨h.1, h.2.1, ?_⟩
  rw [h10.2.2.1]
  rfl

/-- `List.max?` on naturals is the greatest element. -/
theorem nat_max?_spec (l : List Nat) (a : Nat) :
    l.max? = some a ↔ a ∈ l ∧ ∀ b ∈ l, b ≤ a :=
  List.max?_eq_some_iff (fun a => Nat.le_refl a) (fun a b => max_choice a b)
    (fun _ _ _ => Nat.max_le)

/-- C4: a new task saved without a ticket number is assigned
`nextTicketNumber`, which is strictly greater than the ticket number of
every non-deleted task of the project, equals 1 when the project has no
non-deleted task, and equals (maximum existing ticket number) + 1 when it
has some; and the hook never touches the ticket number of a task that is
not new or already carries a nonzero one. -/
theorem ticketNumber_assignment (tasks : List TaskDoc) (projectId : Nat) :
    (preSaveTicketHook tasks true projectId none =
      some (nextTicketNumber tasks projectId)) ∧
    (∀ t ∈ tasks, t.project = projectId → t.deletedAt = none →
      t.ticketNumber < nextTicketNumber tasks projectId) ∧
    ((∀ t ∈ tasks, ¬(t.project = projectId ∧ t.deletedAt = none)) →
      nextTicketNumber tasks projectId = 1) ∧
    (∀ t ∈ tasks, t.project = projectId → t.deletedAt = none →
      ∃ t' ∈ tasks, t'.project = projectId ∧ t'.deletedAt = none ∧
        nextTicketNumber tasks projectId = t'.ticketNumber + 1) ∧
    (∀ tn, preSaveTicketHook tasks false projectId tn = tn) ∧
    (∀ k, k ≠ 0 → preSaveTicketHook tasks true projectId (some k) = some k) := by
  refine ⟨by simp [preSaveTicketHook], ?_, ?_, ?_, ?_, ?_⟩
  · intro t ht hp hd
    unfold nextTicketNumber
    cases hmax : ((tasks.filter (fun t =>
        t.project == projectId && t.deletedAt == none)).map
          (fun t => t.ticketNumber)).max? with
    | none =>
      rw [List.max?_eq_none_iff] at hmax
      have : t.ticketNumber ∈ ((tasks.filter (fun t =>
          t.project == projectId && t.deletedAt == none)).map
            (fun t => t.ticketNumber)) := by
        simp only [List.mem_map, List.mem_filter]
        exact ⟨t, ⟨ht, by simp [hp, hd]⟩, rfl⟩
      rw [hmax] at this
      cases this
    | some m =>
      have hle := ((nat_max?_spec _ m).mp hmax).2
      have : t.ticketNumber ∈ ((tasks.filter (fun t =>
          t.project == projectId && t.deletedAt == none)).map
            (fun t => t.ticketNumber)) := by
        simp only [List.mem_map, List.mem_filter]
        exact ⟨t, ⟨ht, by simp [hp, hd]⟩, rfl⟩
      exact Nat.lt_succ_of_le (hle _ this)
  · intro hnone
    unfold nextTicketNumber
    have : (tasks.filter (fun t =>
        t.project == projectId && t.deletedAt == none)) = [] := by
      rw [List.filter_eq_nil_iff]
      intro t ht
      have := hnone t ht
      simp only [Bool.and_eq_true, beq_iff_eq]
      tauto
    rw [this]
    rfl
  · intro t ht hp hd
    unfold nextTicketNumber
    cases hmax : ((tasks.filter (fun t =>
        t.project == projectId && t.deletedAt == none)).map
          (fun t => t.ticketNumber)).max? with
    | none =>
      rw [List.max?_eq_none_iff] at hmax
      have : t.ticketNumber ∈ ((tasks.filter (fun t =>
          t.project == projectId && t.deletedAt == none)).map
            (fun t => t.ticketNumber)) := by
        simp only [List.mem_map, List.mem_filter]
        exact ⟨t, ⟨ht, by simp [hp, hd]⟩, rfl⟩
      rw [hmax] at this
      cases this
    | some m =>
      have hmem := ((nat_max?_spec _ m).mp hmax).1
      simp only [List.mem_map, List.mem_filter, Bool.and_eq_true, beq_iff_eq] at hmem
      obtain ⟨t', ⟨ht', hp', hd'⟩, hnum⟩ := hmem
      exact ⟨t', ht', hp', hd', by rw [hnum]⟩
  · intro tn
    simp [preSaveTicketHook]
  · intro k hk
    simp [preSaveTicketHook, hk]

/-- C4 witness: in a project whose non-deleted tasks are numbered 1 and 3
(and a soft-deleted task numbered 9), the next task gets ticket number 4;
with no tasks at all, it gets 1; re-saving an existing task (ticket 3)
leaves the number unchanged. -/
theorem ticketNumber_assignment_witness :
    preSaveTicketHook
      [⟨400, 300, 1, none⟩, ⟨401, 300, 3, none⟩, ⟨402, 300, 9, some 50⟩]
      true 300 none = some 4 ∧
    preSaveTicketHook [] true 300 none = some 1 ∧
    preSaveTicketHook
      [⟨400, 300, 1, none⟩, ⟨401, 300, 3, none⟩, ⟨402, 300, 9, some 50⟩]
      false 300 (some 3) = some 3 ∧
    preSaveTicketHook
      [⟨400, 300, 1, none⟩, ⟨401, 300, 3, none⟩, ⟨402, 300, 9, some 50⟩]
      true 300 (some 3) = some 3 :=
  ⟨(ticketNumber_assignment
      [⟨400, 300, 1, none⟩, ⟨401, 300, 3, none⟩, ⟨402, 300, 9, some 50⟩] 300).1,
   (ticketNumber_assignment [] 300).1,
   (ticketNumber_assignment
      [⟨400, 300, 1, none⟩, ⟨401, 300, 3, none⟩, ⟨402, 300, 9, some 50⟩] 300).2.2.2.2.1
      (some 3),
   (ticketNumber_assignment
      [⟨400, 300, 1, none⟩, ⟨401, 300, 3, none⟩, ⟨402, 300, 9, some 50⟩] 300).2.2.2.2.2
      3 (by decide)⟩

/-- C5: the cascade of `deleteWorkspace` stamps the workspace and its
members, labels, projects, tasks and comments with the single captured
timestamp — but it never touches the attachments or activity-log
collections of any database (their update calls are no-ops: the attachment
filter queries a `workspace` field the attachment schema does not have, and
the activity-log update sets a `deletedAt` path the log schema does not
have, which strict mode strips).  On the concrete database this means every
dependent entity ends with `deletedAt = some 100` except the attachment,
which remains live, and the activity log, which has no deletion mark at
all — contradicting the claimed guarantee for those two collections. -/
theorem deleteWorkspace_cascade :
    (∀ db ws now, (deleteWorkspace db ws now).attachments = db.attachments ∧
      (deleteWorkspace db ws now).activityLogs = db.activityLogs) ∧
    deleteWorkspace dbCascade wsA 100 =
      { workspaces := [⟨1, "Acme", "acme", 10, some false, some 100⟩,
                       ⟨2, "Other", "other", 11, some false, none⟩]
        members := [⟨100, 1, 10, Role.owner, none, some 100⟩,
                    ⟨101, 2, 11, Role.owner, none, none⟩]
        users := [⟨10, "a@x.io", none⟩, ⟨11, "b@x.io", none⟩]
        labels := [⟨200, 1, some 100⟩]
        projects := [⟨300, 1, "Proj", "PRO", some 100⟩]
        tasks := [⟨400, 300, 1, some 100⟩]
        comments := [⟨500, 400, some 100⟩]
        attachments := [⟨600, 400, 10, none⟩]
        activityLogs := [⟨700, 1, 10⟩] } := by
  constructor
  · intro db ws now
    unfold deleteWorkspace
    dsimp only
    split <;> exact ⟨rfl, rfl⟩
  · rfl

/-- `wsSplit` never returns an empty list of pieces: like JS
`String.prototype.split`, it yields at least one (possibly empty) piece. -/
theorem wsSplitAux_ne_nil (l acc : List Char) (b : Bool) :
    wsSplitAux b l acc ≠ [] := by
  induction l generalizing b acc with
  | nil => simp [wsSplitAux]
  | cons c cs ih =>
    unfold wsSplitAux
    by_cases hws : c.isWhitespace = true
    · rw [if_pos hws]
      cases b with
      | true => simpa using ih acc true
      | false => simp
    · rw [if_neg hws]
      exact ih (c :: acc) false

/-- C7: the key derivation scenarios hold ("Mobile App Development" →
`MAD`, "Mobile" → `MOB`, second "Mobile" in the workspace → `MOB1`), but
the claimed empty-input fallback to the fixed default code does not: JS
`split` never returns an empty array (the `words.length === 0` branch
returning `"PROJ"` is dead code), so an empty or all-symbol name yields the
empty key `""`, not `"PROJ"`. -/
theorem generateKeyFromName_eval :
    generateKeyFromName "Mobile App Development" = "MAD" ∧
    generateKeyFromName "Mobile" = "MOB" ∧
    generateUniqueKey [⟨1, 7, "Mobile", "MOB", none⟩] 7 "Mobile" = .ok "MOB1" ∧
    generateKeyFromName "" = "" ∧
    generateKeyFromName "!!!" = "" ∧
    generateKeyFromName "" ≠ "PROJ" ∧
    (∀ l, wsSplit l ≠ []) :=
  ⟨rfl, rfl, rfl, rfl, rfl, by decide, fun l => wsSplitAux_ne_nil l [] false⟩

/-- Auxiliary: ASCII code of `Char.ofNat (n + 32)` for an uppercase code
`n`. -/
theorem toNat_ofNat_add32 (n : Nat) (h1 : 65 ≤ n) (h2 : n ≤ 90) :
    (Char.ofNat (n + 32)).toNat = n + 32 := by
  interval_cases n <;> decide

/-- `Char.toLower` maps the uppercase ASCII range to lowercase and fixes
everything else. -/
theorem toLower_toNat (c : Char) :
    (Char.toLower c).toNat =
      if c.toNat ≥ 65 ∧ c.toNat ≤ 90 then c.toNat + 32 else c.toNat := by
  simp only [Char.toLower]
  by_cases h : c.toNat ≥ 65 ∧ c.toNat ≤ 90
  · rw [if_pos h, if_pos h]
    exact toNat_ofNat_add32 c.toNat h.1 h.2
  · rw [if_neg h, if_neg h]

/-- No character in the image of `Char.toLower` is an uppercase ASCII
letter. -/
theorem toLower_not_upper (c : Char) :
    ¬(65 ≤ (Char.toLower c).toNat ∧ (Char.toLower c).toNat ≤ 90) := by
  rw [toLower_toNat]
  by_cases h : c.toNat ≥ 65 ∧ c.toNat ≤ 90
  · rw [if_pos h]; omega
  · rw [if_neg h]; omega

/-- The head of `dropWhile p l`, when present, does not satisfy `p`. -/
theorem head?_dropWhile_not {α : Type} (p : α → Bool) (l : List α) :
    ∀ c, (l.dropWhile p).head? = some c → p c = false := by
  induction l with
  | nil => intro c h; cases h
  | cons a t ih =>
    intro c h
    by_cases hpa : p a = true
    · rw [List.dropWhile_cons_of_pos hpa] at h
      exact ih c h
    · rw [List.dropWhile_cons_of_neg hpa] at h
      cases h
      simpa using hpa

/-- Characters of a collapsed list: either the replacement character or a
kept character of the input (one not satisfying `p`). -/
theorem mem_collapseRunsAux (p : Char → Bool) (rep : Char) :
    ∀ (b : Bool) (l : List Char) (c : Char), c ∈ collapseRunsAux p rep b l →
      c = rep ∨ (c ∈ l ∧ p c = false) := by
  intro b l
  induction l generalizing b with
  | nil => intro c h; cases h
  | cons a t ih =>
    intro c h
    unfold collapseRunsAux at h
    by_cases hpa : p a = true
    · rw [if_pos hpa] at h
      cases b with
      | true =>
        rcases ih true c h with h' | ⟨hmem, hp⟩
        · exact Or.inl h'
        · exact Or.inr ⟨List.mem_cons_of_mem a hmem, hp⟩
      | false =>
        rcases List.mem_cons.mp h with h' | h'
        · exact Or.inl h'
        · rcases ih true c h' with h'' | ⟨hmem, hp⟩
          · exact Or.inl h''
          · exact Or.inr ⟨List.mem_cons_of_mem a hmem, hp⟩
    · rw [if_neg hpa] at h
      rcases List.mem_cons.mp h with h' | h'
      · subst h'
        exact Or.inr ⟨List.mem_cons_self _ _, by simpa using hpa⟩
      · rcases ih false c h' with h'' | ⟨hmem, hp⟩
        · exact Or.inl h''
        · exact Or.inr ⟨List.mem_cons_of_mem a hmem, hp⟩

/-- After the collapser has just consumed a run character, the next emitted
character (if any) is a kept character, never a run character. -/
theorem head?_collapseRunsAux_true (p : Char → Bool) (rep : Char) :
    ∀ (l : List Char) (c : Char),
      (collapseRunsAux p rep true l).head? = some c → p c = false := by
  intro l
  induction l with
  | nil => intro c h; cases h
  | cons a t ih =>
    intro c h
    unfold collapseRunsAux at h
    by_cases hpa : p a = true
    · rw [if_pos hpa] at h
      simpa using ih c (by simpa using h)
    · rw [if_neg hpa] at h
      cases h
      simpa using hpa

/-- Collapsing hyphen runs leaves no two adjacent hyphens. -/
theorem chain'_collapseRunsAux_hyphen :
    ∀ (b : Bool) (l : List Char),
      (collapseRunsAux (fun c => c == '-') '-' b l).Chain'
        (fun a b => ¬(a = '-' ∧ b = '-')) := by
  intro b l
  induction l generalizing b with
  | nil => simp [collapseRunsAux]
  | cons a t ih =>
    unfold collapseRunsAux
    by_cases hpa : (a == '-') = true
    · rw [if_pos hpa]
      cases b with
      | true => exact ih true
      | false =>
        simp only [Bool.false_eq_true, if_false]
        rw [List.chain'_cons']
        refine ⟨?_, ih true⟩
        intro y hy
        have := head?_collapseRunsAux_true (fun c => c == '-') '-' t y hy
        simp only [beq_eq_false_iff_ne, ne_eq] at this
        exact fun hcontra => this hcontra.2
    · rw [if_neg hpa]
      rw [List.chain'_cons']
      refine ⟨?_, ih false⟩
      intro y hy
      simp only [beq_eq_false_iff_ne, ne_eq] at hpa
      have hne : ¬(a = '-') := by simpa using hpa
      exact fun hcontra => hne hcontra.1

/-- `noHyphenRun` is the `Chain'` of "not both hyphens". -/
theorem noHyphenRun_iff_chain' :
    ∀ l : List Char, noHyphenRun l = true ↔
      l.Chain' (fun a b => ¬(a = '-' ∧ b = '-')) := by
  intro l
  induction l with
  | nil => simp [noHyphenRun]
  | cons a t ih =>
    cases t with
    | nil => simp [noHyphenRun]
    | cons b t' =>
      rw [List.chain'_cons]
      unfold noHyphenRun
      rw [Bool.and_eq_true, ← ih]
      constructor
      · rintro ⟨h1, h2⟩
        refine ⟨?_, h2⟩
        intro ⟨ha, hb⟩
        subst ha; subst hb
        simp at h1
      · rintro ⟨h1, h2⟩
        refine ⟨?_, h2⟩
        by_cases ha : a = '-'
        · by_cases hb : b = '-'
          · exact absurd ⟨ha, hb⟩ h1
          · subst ha; simp [hb]
        · simp [ha]

/-- Characters of the hyphen-trimmed list come from the input. -/
theorem mem_trimHyphens {c : Char} {l : List Char} (h : c ∈ trimHyphens l) :
    c ∈ l := by
  unfold trimHyphens at h
  rw [List.mem_reverse] at h
  have h1 := (List.dropWhile_sublist (fun c => c == '-')).subset h
  rw [List.mem_reverse] at h1
  exact (List.dropWhile_sublist (fun c => c == '-')).subset h1

/-- Characters of the JS-trimmed list come from the input. -/
theorem mem_jsTrim {c : Char} {l : List Char} (h : c ∈ jsTrim l) : c ∈ l := by
  unfold jsTrim at h
  rw [List.mem_reverse] at h
  have h1 := (List.dropWhile_sublist Char.isWhitespace).subset h
  rw [List.mem_reverse] at h1
  exact (List.dropWhile_sublist Char.isWhitespace).subset h1

/-- The first character of the hyphen-trimmed list is not a hyphen. -/
theorem trimHyphens_head {l : List Char} {c : Char}
    (h : (trimHyphens l).head? = some c) : (c == '-') = false := by
  unfold trimHyphens at h
  rw [List.head?_reverse] at h
  obtain ⟨pre, hpre⟩ :=
    List.dropWhile_suffix (l := (l.dropWhile (fun c => c == '-')).reverse)
      (fun c => c == '-')
  have hlast : ((l.dropWhile (fun c => c == '-')).reverse).getLast? = some c := by
    rw [← hpre, List.getLast?_append, h]
    rfl
  rw [List.getLast?_reverse] at hlast
  exact head?_dropWhile_not _ _ c hlast

/-- The last character of the hyphen-trimmed list is not a hyphen. -/
theorem trimHyphens_getLast {l : List Char} {c : Char}
    (h : (trimHyphens l).getLast? = some c) : (c == '-') = false := by
  unfold trimHyphens at h
  rw [List.getLast?_reverse] at h
  exact head?_dropWhile_not _ _ c h

/-- Hyphen-trimming preserves "no two adjacent hyphens". -/
theorem chain'_trimHyphens {l : List Char}
    (h : l.Chain' (fun a b => ¬(a = '-' ∧ b = '-'))) :
    (trimHyphens l).Chain' (fun a b => ¬(a = '-' ∧ b = '-')) := by
  have comm : ∀ x y : Char, ¬(x = '-' ∧ y = '-') → ¬(y = '-' ∧ x = '-') :=
    fun x y hxy ⟨h1, h2⟩ => hxy ⟨h2, h1⟩
  have h1 := h.suffix (List.dropWhile_suffix (fun c => c == '-'))
  have h2 : ((l.dropWhile (fun c => c == '-')).reverse).Chain'
      (fun a b => ¬(a = '-' ∧ b = '-')) :=
    List.chain'_reverse.mpr (h1.imp comm)
  have h3 := h2.suffix (List.dropWhile_suffix (fun c => c == '-'))
  exact List.chain'_reverse.mpr (h3.imp comm)

/-- Every slug produced by `generateSlugFromName` is either empty or
matches `^[a-z0-9_]+(-[a-z0-9_]+)*$`: the source keeps underscores (JS
`\w`) but otherwise produces lowercase alphanumeric hyphen-separated
groups. -/
theorem generateSlugFromName_wellformed (name : String) :
    generateSlugFromName name = "" ∨
      matchesRelaxedSlugPattern (generateSlugFromName name) := by
  by_cases hempty : generateSlugFromName name = ""
  · exact Or.inl hempty
  right
  unfold generateSlugFromName at hempty ⊢
  refine ⟨?_, ?_, ?_, ?_, ?_⟩
  · intro hc
    exact hempty (congrArg String.mk hc)
  · intro c hc
    replace hc : c ∈ trimHyphens (collapseRuns (fun c => c == '-') '-'
        (collapseRuns Char.isWhitespace '-'
          ((jsTrim (name.toList.map Char.toLower)).filter
            (fun c => isWordChar c || c.isWhitespace || c == '-')))) := hc
    have h4 := mem_trimHyphens hc
    rcases mem_collapseRunsAux _ _ false _ c h4 with hrep | ⟨h3, hnothyph⟩
    · exact Or.inr (Or.inr (Or.inr hrep))
    rcases mem_collapseRunsAux _ _ false _ c h3 with hrep | ⟨h2, hnotws⟩
    · exact absurd (by simp [hrep] : (c == '-') = true) (by simp [hnothyph])
    rw [List.mem_filter] at h2
    obtain ⟨h1, hkeep⟩ := h2
    have hword : isWordChar c = true := by
      rcases Bool.or_eq_true_iff.mp hkeep with h | h
      · rcases Bool.or_eq_true_iff.mp h with h | h
        · exact h
        · rw [h] at hnotws; cases hnotws
      · rw [h] at hnothyph; cases hnothyph
    have h0 := mem_jsTrim h1
    obtain ⟨d, -, hd⟩ := List.mem_map.mp h0
    have hupper : ¬(65 ≤ c.toNat ∧ c.toNat ≤ 90) := hd ▸ toLower_not_upper d
    unfold isWordChar at hword
    rcases Bool.or_eq_true_iff.mp hword with h | hund
    · rcases Bool.or_eq_true_iff.mp h with h' | hdig
      · rcases Bool.or_eq_true_iff.mp h' with hup | hlow
        · simp only [Bool.and_eq_true, decide_eq_true_eq] at hup
          exact absurd hup hupper
        · simp only [Bool.and_eq_true, decide_eq_true_eq] at hlow
          exact Or.inl hlow
      · simp only [Bool.and_eq_true, decide_eq_true_eq] at hdig
        exact Or.inr (Or.inl hdig)
    · exact Or.inr (Or.inr (Or.inl (by simpa using hund)))
  · intro hc
    have := trimHyphens_head (l := collapseRuns (fun c => c == '-') '-'
      (collapseRuns Char.isWhitespace '-'
        ((jsTrim (name.toList.map Char.toLower)).filter
          (fun c => isWordChar c || c.isWhitespace || c == '-')))) hc
    simp at this
  · intro hc
    have := trimHyphens_getLast (l := collapseRuns (fun c => c == '-') '-'
      (collapseRuns Char.isWhitespace '-'
        ((jsTrim (name.toList.map Char.toLower)).filter
          (fun c => isWordChar c || c.isWhitespace || c == '-')))) hc
    simp at this
  · exact (noHyphenRun_iff_chain' _).mpr
      (chain'_trimHyphens (chain'_collapseRunsAux_hyphen false _))

/-- C6 counterexample: for the name `"a_b"` the derived slug is `"a_b"`,
not the `"ab"` the claimed stripping rule (`[a-z0-9\s-]`) would give — JS
`\w` keeps underscores — and the result does not match
`^[a-z0-9]+(-[a-z0-9]+)*$`. -/
theorem generateSlugFromName_underscore_cex :
    generateSlugFromName "a_b" = "a_b" ∧
    specSlugFromName "a_b" = "ab" ∧
    generateSlugFromName "a_b" ≠ specSlugFromName "a_b" ∧
    ¬matchesSlugPattern (generateSlugFromName "a_b") :=
  ⟨rfl, rfl, by decide, by decide⟩

/-- C6 (amended): the slug pipeline lowercases, trims, strips characters
outside `[\w\s-]` (keeping underscores), collapses whitespace runs to single
hyphens, collapses hyphen runs, and trims hyphens at the ends; every
produced slug is empty or matches `^[a-z0-9_]+(-[a-z0-9_]+)*$`; the name
"My Awesome Workspace" derives `my-awesome-workspace`, and a second
workspace with the same name receives `my-awesome-workspace-1`. -/
theorem slug_derivation_spec :
    (∀ name, generateSlugFromName name = "" ∨
      matchesRelaxedSlugPattern (generateSlugFromName name)) ∧
    generateSlugFromName "My Awesome Workspace" = "my-awesome-workspace" ∧
    generateUniqueSlug
      [⟨1, "My Awesome Workspace", "my-awesome-workspace", 10, some false, none⟩]
      "My Awesome Workspace" = some "my-awesome-workspace-1" :=
  ⟨generateSlugFromName_wellformed, rfl, rfl⟩

/-- The slug probe loop returns the first free candidate: if every
candidate from index `k` up to (but excluding) `m` is taken and candidate
`m` is free, then — given enough fuel — the loop started at `k` returns
candidate `m`. -/
theorem findAvailableSlugAux_spec (wss : List WorkspaceDoc) (base : String) :
    ∀ fuel k m, k ≤ m → m - k < fuel →
      (∀ i, k ≤ i → i < m → slugTaken wss (slugCandidate base i) = true) →
      slugTaken wss (slugCandidate base m) = false →
      findAvailableSlugAux wss base fuel k = some (slugCandidate base m) := by
  intro fuel
  induction fuel with
  | zero => intro k m hkm hf; omega
  | succ f ih =>
    intro k m hkm hf htaken hfree
    unfold findAvailableSlugAux
    by_cases hkeq : k = m
    · subst hkeq
      rw [hfree]
      simp
    · have hk : k < m := lt_of_le_of_ne hkm hkeq
      rw [htaken k le_rfl hk]
      simp only [if_true]
      exact ih (k + 1) m hk (by omega)
        (fun i h1 h2 => htaken i (by omega) h2) hfree

/-- The key probe loop throws the generation-exhausted error when every
candidate from the current counter up to 999 is taken. -/
theorem generateUniqueKeyAux_exhaust (projects : List ProjectDoc) (wsId : Nat)
    (base : String) :
    ∀ fuel c, c + fuel = 999 →
      (∀ k, c ≤ k → k ≤ 999 → keyTaken projects wsId (keyCandidate base k) = true) →
      generateUniqueKeyAux projects wsId base (keyCandidate base c) c fuel =
        .error ⟨"Unable to generate unique project key after 999 attempts", 500⟩ := by
  intro fuel
  induction fuel with
  | zero =>
    intro c hc htaken
    unfold generateUniqueKeyAux
    rw [htaken c le_rfl (by omega)]
    simp
  | succ f ih =>
    intro c hc htaken
    unfold generateUniqueKeyAux
    rw [htaken c le_rfl (by omega)]
    simp only [if_true]
    have hcand : base ++ Nat.repr (c + 1) = keyCandidate base (c + 1) := by
      unfold keyCandidate
      simp
    rw [hcand]
    exact ih (c + 1) (by omega) (fun k h1 h2 => htaken k (by omega) h2)

/-- All 1000 key candidates of base `K` are taken in `projsCrowded`. -/
theorem projsCrowded_all_taken (k : Nat) (hk : k ≤ 999) :
    keyTaken projsCrowded 7 (keyCandidate "K" k) = true := by
  apply List.any_eq_true.mpr
  refine ⟨⟨k, 7, "P", keyCandidate "K" k, none⟩, ?_, by simp⟩
  unfold projsCrowded
  exact List.mem_map.mpr ⟨k, List.mem_range.mpr (by omega), rfl⟩

/-- The first 1001 slug candidates of base `a` are taken in
`wssCrowded`. -/
theorem wssCrowded_taken (i : Nat) (hi : i < 1001) :
    slugTaken wssCrowded (slugCandidate "a" i) = true := by
  apply List.any_eq_true.mpr
  refine ⟨⟨i, "W", slugCandidate "a" i, 0, none, none⟩, ?_, by simp⟩
  unfold wssCrowded
  exact List.mem_map.mpr ⟨i, List.mem_range.mpr hi, rfl⟩

set_option maxRecDepth 4000 in
/-- C8 counterexample: the slug collision loop has no 999-attempt bound.
With the candidates `a`, `a-1`, …, `a-1000` all taken by non-deleted
workspaces, `findAvailableSlug` keeps probing past suffix 999 and returns
`a-1001` instead of aborting with a generation-exhausted error. -/
theorem findAvailableSlug_unbounded_cex :
    findAvailableSlug wssCrowded "a" = some "a-1001" := by
  have hlen : wssCrowded.length = 1001 := by
    unfold wssCrowded
    simp
  have hne : ∀ i, i < 1001 → slugCandidate "a" i ≠ "a-1001" := by decide
  have hfree : slugTaken wssCrowded (slugCandidate "a" 1001) = false := by
    apply List.any_eq_false.mpr
    intro w hw
    unfold wssCrowded at hw
    obtain ⟨i, hi, hwi⟩ := List.mem_map.mp hw
    rw [← hwi]
    simp only [Bool.and_eq_true, beq_iff_eq, not_and]
    intro hslug
    exact absurd (by simpa using hslug)
      (by simpa using hne i (List.mem_range.mp hi))
  have := findAvailableSlugAux_spec wssCrowded "a" (wssCrowded.length + 1)
    0 1001 (by omega) (by omega)
    (fun i _ h2 => wssCrowded_taken i h2) hfree
  unfold findAvailableSlug
  rw [this]
  rfl

/-- C8 (amended): on collision both generators append an increasing numeric
suffix and re-probe, but only the project-key generator is bounded: it
aborts with the generation-exhausted error after the 999 suffix attempts
(the conjunct instantiated at counter 0 covers `generateUniqueKey`), while
the slug generator returns the first free candidate at any index, with no
attempt bound.  The slug probe ignores soft-deleted workspaces; the key
probe also counts soft-deleted projects. -/
theorem collision_loop_spec :
    (∀ projects wsId name,
      (∀ k, k ≤ 999 → keyTaken projects wsId
        (keyCandidate (generateKeyFromName name) k) = true) →
      generateUniqueKey projects wsId name =
        .error ⟨"Unable to generate unique project key after 999 attempts", 500⟩) ∧
    (∀ wss base n, n ≤ wss.length →
      (∀ i, i < n → slugTaken wss (slugCandidate base i) = true) →
      slugTaken wss (slugCandidate base n) = false →
      findAvailableSlug wss base = some (slugCandidate base n)) ∧
    findAvailableSlug [⟨1, "W", "acme", 0, none, some 5⟩] "acme" = some "acme" ∧
    generateUniqueKey [⟨1, 7, "Mobile", "MOB", some 5⟩] 7 "Mobile" = .ok "MOB1" := by
  refine ⟨?_, ?_, rfl, rfl⟩
  · intro projects wsId name htaken
    unfold generateUniqueKey
    exact generateUniqueKeyAux_exhaust projects wsId (generateKeyFromName name)
      999 0 rfl (fun k _ h2 => htaken k h2)
  · intro wss base n hn htaken hfree
    unfold findAvailableSlug
    exact findAvailableSlugAux_spec wss base (wss.length + 1) 0 n
      (Nat.zero_le n) (by omega) (fun i _ h2 => htaken i h2) hfree

/-- C8 witness: with all 1000 candidates of base `K` taken (including by
soft-deleted projects), `generateUniqueKey` aborts with the 500 error; and
with only the base slug `b` taken, `findAvailableSlug` yields `b-1`. -/
theorem collision_loop_spec_witness :
    generateUniqueKey projsCrowded 7 "K" =
      .error ⟨"Unable to generate unique project key after 999 attempts", 500⟩ ∧
    findAvailableSlug [⟨1, "W", "b", 0, none, none⟩] "b" = some "b-1" :=
  ⟨collision_loop_spec.1 projsCrowded 7 "K"
      (fun k hk => projsCrowded_all_taken k hk),
   collision_loop_spec.2.1 [⟨1, "W", "b", 0, none, none⟩] "b" 1
      (by decide) (fun i hi => by interval_cases i; decide) (by decide)⟩

/-- C10 witness: inviting `b@x.io` with no role field creates a MEMBER
membership. -/
theorem inviteMember_default_role_witness :
    inviteMember
      ⟨[⟨1, "Acme", "acme", 10, some false, none⟩],
       [⟨100, 1, 10, Role.owner, none, none⟩],
       [⟨10, "a@x.io", none⟩, ⟨11, "b@x.io", none⟩],
       [], [], [], [], [], []⟩
      ⟨1, "Acme", "acme", 10, some false, none⟩ 10 "b@x.io" none 101 =
      .ok ⟨[⟨1, "Acme", "acme", 10, some false, none⟩],
       [⟨100, 1, 10, Role.owner, none, none⟩,
        ⟨101, 1, 11, Role.member, some 10, none⟩],
       [⟨10, "a@x.io", none⟩, ⟨11, "b@x.io", none⟩],
       [], [], [], [], [], []⟩ :=
  inviteMember_default_role _ _ 10 "b@x.io" none 101 ⟨11, "b@x.io", none⟩
    (by rfl) (by rfl) (by rfl)

end TeamSync
